import Mathlib

/-
  Verification development for the EquityResearch repository.

  Shallow embedding of the two cores described in the specification:
  the link verification subsystem (verifyPdfLinks and its helpers in the
  Gemini service module) and the pipeline orchestrator (startResearch and
  saveToHistory in App.tsx, primary variant).  JavaScript strings are
  modelled as lists of characters; JS regular-expression and string
  operations are modelled char-by-char with ASCII case folding.
-/

set_option maxRecDepth 100000

/-- JS strings are modelled as lists of characters. -/
abbrev Text := List Char

/-- Model of JS String.prototype.includes: does pat occur as a contiguous
    substring of the text? -/
def hasSubstr (pat : Text) : Text → Bool
  | [] => pat.isEmpty
  | c :: rest => pat.isPrefixOf (c :: rest) || hasSubstr pat rest

/-- ASCII lower-casing of one character, the case folding relevant to the
    regex i-flag and toLowerCase calls on the ASCII data in this program. -/
def asciiLower (c : Char) : Char :=
  if 'A' ≤ c ∧ c ≤ 'Z' then Char.ofNat (c.toNat + 32) else c

/-- Membership in the JS regex whitespace class backslash-s. -/
def jsWs (c : Char) : Bool :=
  c = ' ' || c = '\t' || c = '\n' || c = '\r' || c = '\x0b' || c = '\x0c' ||
  c = ' ' || c = ' ' || (' ' ≤ c && c ≤ ' ') ||
  c = ' ' || c = ' ' || c = ' ' || c = ' ' ||
  c = '　' || c = '﻿'

/-- Characters admitted by the negated class in the URL pattern:
    everything except whitespace, the pipe and the closing parenthesis. -/
def urlChar (c : Char) : Bool :=
  !jsWs c && c ≠ '|' && c ≠ ')'

/-- Does the text begin with ".pdf", the suffix letters case-insensitive
    (regex i-flag)? -/
def isPdfAt : Text → Bool
  | '.' :: b :: c :: d :: _ =>
      asciiLower b = 'p' && asciiLower c = 'd' && asciiLower d = 'f'
  | _ => false

/-- Lazy part of the URL pattern: at least one urlChar, as few as possible,
    followed by ".pdf".  Returns the total number of characters consumed
    (body plus the four suffix characters) or none. -/
def bodyPdf : Text → Option Nat
  | [] => none
  | c :: rest =>
    if urlChar c then
      if isPdfAt rest then some 5
      else
        match bodyPdf rest with
        | some n => some (n + 1)
        | none => none
    else none

/-- Attempt to match the whole URL pattern at the head of the text.
    Mirrors https?, then literal "://", then the lazy body ending in
    ".pdf".  Returns the length of the match. -/
def matchAt (l : Text) : Option Nat :=
  match l with
  | h :: t1 :: t2 :: p :: rest =>
    if asciiLower h = 'h' && asciiLower t1 = 't' && asciiLower t2 = 't' &&
        asciiLower p = 'p' then
      match rest with
      | s :: c1 :: s1 :: s2 :: rest2 =>
        if asciiLower s = 's' && c1 = ':' && s1 = '/' && s2 = '/' then
          (bodyPdf rest2).map (fun n => 8 + n)
        else if s = ':' && c1 = '/' && s1 = '/' then
          (bodyPdf (s2 :: rest2)).map (fun n => 7 + n)
        else none
      | _ => none
    else none
  | _ => none

/-- Fuel-driven worker for the global regex scan.  Every recursive call
    strictly shortens the text, so fuel equal to the text length always
    suffices and the zero-fuel row is never reached from scanMatches. -/
def scanMatchesF : Nat → Text → List Text
  | _, [] => []
  | 0, _ => []
  | fuel + 1, c :: rest =>
    match matchAt (c :: rest) with
    | some n => (c :: rest).take n :: scanMatchesF fuel (rest.drop (n - 1))
    | none => scanMatchesF fuel rest

/-- Global scan of the text for the PDF-URL pattern, the model of
    markdown.match(urlRegex) with the g flag: on a match, record the
    matched substring and resume after it; otherwise advance one
    character. -/
def scanMatches (t : Text) : List Text :=
  scanMatchesF t.length t

/-- Fuel-driven worker for first-seen deduplication. -/
def dedupKeepFirstF : Nat → List Text → List Text
  | _, [] => []
  | 0, _ => []
  | fuel + 1, x :: xs =>
    x :: dedupKeepFirstF fuel (xs.filter (fun y => decide (y ≠ x)))

/-- First-seen-order deduplication, the model of Array.from(new Set(a)). -/
def dedupKeepFirst (l : List Text) : List Text :=
  dedupKeepFirstF l.length l

/-- The deduplicated URL list extracted from a text, in first-seen order. -/
def uniqueUrls (t : Text) : List Text :=
  dedupKeepFirst (scanMatches t)

/-- Per-URL verification outcome, as in the specification data model. -/
inductive LinkStatus
  | verified
  | invalid
  | dead
  | unverifiable
deriving DecidableEq

/-- Outcome of one HEAD probe: a settled response with its ok flag and
    declared content-type header (absent allowed), or a raised error
    (timeout, network refusal, CORS). -/
inductive ProbeOutcome
  | resp (ok : Bool) (contentType : Option Text)
  | errored
deriving DecidableEq

/-- Classification of a probe outcome, from the try block of the probe
    lambda inside verifyPdfLinks: ok responses are verified when the
    lower-cased content type contains "pdf" and invalid otherwise,
    non-ok responses are dead, raised errors are unverifiable. -/
def classify : ProbeOutcome → LinkStatus
  | .resp true (some ct) =>
      if hasSubstr "pdf".toList (ct.map asciiLower) then .verified else .invalid
  | .resp true none => .invalid
  | .resp false _ => .dead
  | .errored => .unverifiable

/-- Fuel-driven worker for global literal substring replacement.  When
    the pattern matches, the scan resumes after the matched occurrence;
    fuel equal to the text length always suffices. -/
def replaceAllF (u r : Text) : Nat → Text → Text
  | _, [] => []
  | 0, t => t
  | fuel + 1, c :: rest =>
    if u ≠ [] ∧ u.isPrefixOf (c :: rest) = true then
      r ++ replaceAllF u r fuel ((c :: rest).drop u.length)
    else
      c :: replaceAllF u r fuel rest

/-- Global literal substring replacement, the model of
    text.replace(new RegExp(escapedUrl, g-flag), url ++ marker): replace
    every non-overlapping occurrence of u, scanning left to right. -/
def replaceAll (u r t : Text) : Text :=
  replaceAllF u r t.length t

/-- Fuel-driven worker for the occurrence decomposition. -/
def splitOnSubF (u : Text) : Nat → Text → List Text
  | _, [] => [[]]
  | 0, t => [t]
  | fuel + 1, c :: rest =>
    if u ≠ [] ∧ u.isPrefixOf (c :: rest) = true then
      [] :: splitOnSubF u fuel ((c :: rest).drop u.length)
    else
      match splitOnSubF u fuel rest with
      | [] => [[c]]
      | p :: ps => (c :: p) :: ps

/-- Decomposition of a text at the non-overlapping occurrences of u, with
    the same scanning discipline as replaceAll: the parts between (and
    around) the occurrences, in order.  A text with k occurrences yields
    k+1 parts. -/
def splitOnSub (u t : Text) : List Text :=
  splitOnSubF u t.length t

/-- Interleaving a separator between parts; the inverse of splitOnSub. -/
def joinWith (sep : Text) : List Text → Text
  | [] => []
  | [x] => x
  | x :: y :: rest => x ++ sep ++ joinWith sep (y :: rest)

theorem splitOnSubF_ne_nil (u : Text) (fuel : Nat) (t : Text) :
    splitOnSubF u fuel t ≠ [] := by
  match fuel, t with
  | _, [] => simp [splitOnSubF]
  | 0, c :: rest => simp [splitOnSubF]
  | fuel + 1, c :: rest =>
    rw [splitOnSubF]
    split
    · simp
    · split <;> simp

theorem splitOnSub_ne_nil (u t : Text) : splitOnSub u t ≠ [] :=
  splitOnSubF_ne_nil u t.length t

theorem joinWith_cons_cons (sep : Text) (c : Char) (p : Text) (ps : List Text) :
    joinWith sep ((c :: p) :: ps) = c :: joinWith sep (p :: ps) := by
  cases ps <;> simp [joinWith]

theorem joinWith_nil_cons (sep : Text) (l : List Text) (h : l ≠ []) :
    joinWith sep ([] :: l) = sep ++ joinWith sep l := by
  cases l with
  | nil => exact absurd rfl h
  | cons a as => simp [joinWith]

theorem joinWith_splitOnSubF (u : Text) (fuel : Nat) :
    ∀ t : Text, t.length ≤ fuel → joinWith u (splitOnSubF u fuel t) = t := by
  induction fuel with
  | zero =>
    intro t ht
    have : t = [] := List.length_eq_zero.mp (Nat.le_zero.mp ht)
    subst this
    simp [splitOnSubF, joinWith]
  | succ n ih =>
    intro t ht
    match t with
    | [] => simp [splitOnSubF, joinWith]
    | c :: rest =>
      rw [splitOnSubF]
      split
      · rename_i h
        obtain ⟨z, hz⟩ := (List.isPrefixOf_iff_prefix.mp h.2)
        rw [joinWith_nil_cons u _ (splitOnSubF_ne_nil u n _)]
        have hlen : ((c :: rest).drop u.length).length ≤ n := by
          have h1 : 0 < u.length := List.length_pos.mpr h.1
          have h2 := List.length_drop u.length (c :: rest)
          simp only [List.length_cons] at *
          omega
        rw [ih _ hlen]
        conv_rhs => rw [← hz]
        rw [← hz, List.drop_left]
      · have hne := splitOnSubF_ne_nil u n rest
        match hsp : splitOnSubF u n rest with
        | [] => exact absurd hsp hne
        | p :: ps =>
          rw [joinWith_cons_cons]
          rw [← hsp, ih rest (by simp only [List.length_cons] at ht; omega)]

/-- splitOnSub is a faithful decomposition: joining the parts back with
    the pattern itself restores the text. -/
theorem joinWith_splitOnSub (u : Text) (t : Text) :
    joinWith u (splitOnSub u t) = t :=
  joinWith_splitOnSubF u t.length t le_rfl

theorem replaceAllF_eq_joinWith (u r : Text) (fuel : Nat) :
    ∀ t : Text, t.length ≤ fuel →
      replaceAllF u r fuel t = joinWith r (splitOnSubF u fuel t) := by
  induction fuel with
  | zero =>
    intro t ht
    have : t = [] := List.length_eq_zero.mp (Nat.le_zero.mp ht)
    subst this
    simp [splitOnSubF, replaceAllF, joinWith]
  | succ n ih =>
    intro t ht
    match t with
    | [] => simp [splitOnSubF, replaceAllF, joinWith]
    | c :: rest =>
      rw [replaceAllF, splitOnSubF]
      split
      · rename_i h
        rw [joinWith_nil_cons r _ (splitOnSubF_ne_nil u n _)]
        have hlen : ((c :: rest).drop u.length).length ≤ n := by
          have h1 : 0 < u.length := List.length_pos.mpr h.1
          have h2 := List.length_drop u.length (c :: rest)
          simp only [List.length_cons] at *
          omega
        rw [ih _ hlen]
      · have hne := splitOnSubF_ne_nil u n rest
        match hsp : splitOnSubF u n rest with
        | [] => exact absurd hsp hne
        | p :: ps =>
          rw [joinWith_cons_cons]
          rw [← hsp, ih rest (by simp only [List.length_cons] at ht; omega)]

/-- replaceAll is splitOnSub followed by rejoining with the replacement. -/
theorem replaceAll_eq_joinWith (u r : Text) (t : Text) :
    replaceAll u r t = joinWith r (splitOnSub u t) :=
  replaceAllF_eq_joinWith u r t.length t le_rfl

/-- Inline marker appended after a verified URL. -/
def markVerified : Text := " ✅".toList

/-- Inline marker appended after an invalid (non-PDF content) URL. -/
def markInvalid : Text := " ⚠️ (Verified as Non-PDF)".toList

/-- Inline marker appended after a dead URL. -/
def markDead : Text := " ❌ (Dead Link)".toList

/-- Marker selected for a status; unverifiable URLs get no inline marker. -/
def markerOf : LinkStatus → Text
  | .verified => markVerified
  | .invalid => markInvalid
  | .dead => markDead
  | .unverifiable => []

/-- Header of the trailing summary block. -/
def summaryHeader : Text := "\n\n---\n### 🔍 Link Verification Report\n".toList

/-- Alert line, added when any invalid or dead link was found. -/
def alertLine : Text :=
  "- **Alert**: One or more links returned an error or incorrect content type. Please verify manually.\n".toList

/-- Note line, added when some links could not be verified; carries the count. -/
def noteLine (n : Nat) : Text :=
  ("- **Note**: " ++ Nat.repr n ++ " link(s) could not be automatically verified due to domain-level security (CORS) or connection timeouts. These are likely official documents that require manual opening.\n").toList

/-- Success line, added when there were no issues and nothing unverifiable. -/
def successLine : Text :=
  "- **Success**: All reachable links were successfully verified as valid PDF documents.\n".toList

/-- The trailing summary block as built by verifyPdfLinks: the header,
    then the alert line when hasIssues, then either the note line (when
    the unverifiable count is positive) or else the success line (when
    additionally there were no issues). -/
def summaryFor (hasIssues : Bool) (unver : Nat) : Text :=
  summaryHeader ++
  (if hasIssues then alertLine else []) ++
  (if 0 < unver then noteLine unver else if !hasIssues then successLine else [])

/-- Accumulator of the forEach loop over probe results: the enriched text
    so far, whether any invalid or dead link was seen, and the count of
    unverifiable links. -/
structure AnnotAcc where
  text : Text
  hasIssues : Bool
  unver : Nat
deriving DecidableEq

/-- One step of the forEach loop: marked statuses replace every occurrence
    of the URL by the URL followed by its marker; invalid and dead raise
    the issue flag; unverifiable only increments the count. -/
def annotStep (acc : AnnotAcc) (r : Text × LinkStatus) : AnnotAcc :=
  match r.2 with
  | .verified => { acc with text := replaceAll r.1 (r.1 ++ markVerified) acc.text }
  | .invalid => { acc with text := replaceAll r.1 (r.1 ++ markInvalid) acc.text, hasIssues := true }
  | .dead => { acc with text := replaceAll r.1 (r.1 ++ markDead) acc.text, hasIssues := true }
  | .unverifiable => { acc with unver := acc.unver + 1 }

/-- The settled probe results, one per unique URL in first-seen order,
    the model of the Promise.all over urls.map. -/
def verifyResults (probe : Text → ProbeOutcome) (t : Text) : List (Text × LinkStatus) :=
  (uniqueUrls t).map (fun u => (u, classify (probe u)))

/-- Result of the forEach loop over all probe results. -/
def annotAcc (probe : Text → ProbeOutcome) (t : Text) : AnnotAcc :=
  (verifyResults probe t).foldl annotStep ⟨t, false, 0⟩

/-- The enriched markdown before the summary block is appended. -/
def enrichedBody (probe : Text → ProbeOutcome) (t : Text) : Text :=
  (annotAcc probe t).text

/-- Model of verifyPdfLinks: extract and deduplicate the PDF URLs; when
    none are found return the text unchanged; otherwise probe each unique
    URL once, annotate the text per result, and append the summary block.
    The probe argument abstracts fetchWithTimeout plus the network. -/
def verifyPdfLinks (probe : Text → ProbeOutcome) (markdown : Text) : Text :=
  if uniqueUrls markdown = [] then markdown
  else
    (annotAcc probe markdown).text ++
      summaryFor (annotAcc probe markdown).hasIssues (annotAcc probe markdown).unver

/-- The six values of the ResearchStep enum in types.ts. -/
inductive ResearchStep
  | IDLE
  | DOCUMENTS
  | REPORT
  | MEMO
  | COMPLETED
  | ERROR
deriving DecidableEq

/-- Artifact record from types.ts. -/
structure Artifact where
  id : String
  filename : String
  content : String
  title : String
deriving DecidableEq

/-- ResearchHistoryItem record from types.ts. -/
structure ResearchHistoryItem where
  companyName : String
  timestamp : Nat
  artifacts : List Artifact
deriving DecidableEq

/-- ResearchState record from types.ts. -/
structure ResearchState where
  companyName : String
  currentStep : ResearchStep
  artifacts : List Artifact
  history : List ResearchHistoryItem
  error : Option String
  isProcessing : Bool
deriving DecidableEq

/-- ASCII model of String.prototype.toLowerCase. -/
def jsToLower (s : String) : String :=
  (s.toList.map asciiLower).asString

/-- Model of String.prototype.includes at the String level. -/
def containsStr (s pat : String) : Bool :=
  hasSubstr pat.toList s.toList

/-- The error-message phrase distinguishing a revoked authorization. -/
def authPhrase : String := "Requested entity was not found."

/-- Model of companyName.replace over the whitespace-run regex with an
    underscore, used when building artifact filenames: every maximal run
    of whitespace becomes one underscore. -/
def squashWsF : Nat → Text → Text
  | _, [] => []
  | 0, t => t
  | fuel + 1, c :: rest =>
    if jsWs c then '_' :: squashWsF fuel (rest.dropWhile jsWs)
    else c :: squashWsF fuel rest

/-- Collapse each maximal whitespace run to one underscore. -/
def squashWs (t : Text) : Text :=
  squashWsF t.length t

/-- String-level wrapper for squashWs. -/
def underscored (s : String) : String :=
  (squashWs s.toList).asString

/-- Model of saveToHistory in App.tsx: drop any stored entry whose name
    matches the new subject case-insensitively, prepend the fresh entry,
    and keep at most five. -/
def saveToHistory (companyName : String) (artifacts : List Artifact)
    (now : Nat) (history : List ResearchHistoryItem) : List ResearchHistoryItem :=
  let newItem : ResearchHistoryItem := ⟨companyName, now, artifacts⟩
  (newItem :: history.filter
      (fun item => decide (jsToLower item.companyName ≠ jsToLower companyName))).take 5

/-- Model of the catch block of startResearch: an error message carrying
    the authorization-revoked phrase silently resets to IDLE; any other
    message (the empty message replaced by a fixed fallback) is surfaced
    and the run enters the ERROR step. -/
def catchState (prev : ResearchState) (msg : String) : ResearchState :=
  if containsStr msg authPhrase then
    { prev with isProcessing := false, currentStep := .IDLE }
  else
    { prev with
        isProcessing := false,
        error := some (if msg = "" then "An unexpected error occurred during research." else msg),
        currentStep := .ERROR }

/-- Number of reauthorization signals (setHasApiKey false calls) raised by
    the catch block for a given error message. -/
def reauthSignal (msg : String) : Nat :=
  if containsStr msg authPhrase then 1 else 0

/-- Model of startResearch in App.tsx (primary variant).  The three
    generation stages are abstracted as functions returning either text or
    a thrown error message.  The result is the ordered list of state
    snapshots published by setState during the run, paired with the number
    of reauthorization signals raised. -/
def startResearch (gds : String → Except String String)
    (ger : String → String → Except String String)
    (gim : String → String → Except String String)
    (now : Nat) (st : ResearchState) : List ResearchState × Nat :=
  if st.companyName = "" ∨ st.isProcessing then ([], 0)
  else
    let targetCompany := st.companyName
    let st1 : ResearchState :=
      { st with
          isProcessing := true, currentStep := .DOCUMENTS,
          artifacts := [], error := none }
    match gds targetCompany with
    | .error msg => ([st1, catchState st1 msg], reauthSignal msg)
    | .ok docSourcesContent =>
      let docArtifact : Artifact :=
        { id := "step1", title := "Official Document Sources"
          filename := underscored targetCompany ++ "_1_Document_Sources.md"
          content := docSourcesContent }
      let st2 := { st1 with artifacts := [docArtifact], currentStep := .REPORT }
      match ger targetCompany docSourcesContent with
      | .error msg => ([st1, st2, catchState st2 msg], reauthSignal msg)
      | .ok equityReportContent =>
        let reportArtifact : Artifact :=
          { id := "step2", title := "Equity Analyst Report"
            filename := underscored targetCompany ++ "_2_Equity_Report.md"
            content := equityReportContent }
        let st3 := { st2 with
          artifacts := [docArtifact, reportArtifact]
          currentStep := .MEMO }
        match gim targetCompany (docSourcesContent ++ "\n\n" ++ equityReportContent) with
        | .error msg => ([st1, st2, st3, catchState st3 msg], reauthSignal msg)
        | .ok memoContent =>
          let memoArtifact : Artifact :=
            { id := "step3", title := "Investment Memo"
              filename := underscored targetCompany ++ "_3_Investment_Memo.md"
              content := memoContent }
          let finalArtifacts := [docArtifact, reportArtifact, memoArtifact]
          let st4 := { st3 with
            artifacts := finalArtifacts
            currentStep := .COMPLETED
            isProcessing := false }
          let st5 := { st4 with
            history := saveToHistory targetCompany finalArtifacts now st4.history }
          ([st1, st2, st3, st4, st5], 0)

/-- Claim C6: for every probed URL, the verifier classifies the probe
    outcome as verified when the probe succeeds with a success status and
    the declared content type contains "pdf" case-insensitively; invalid
    when it succeeds but the content type does not match; dead when it
    completes with a non-success status; unverifiable when it raises. -/
theorem claimC6 :
    (∀ ct : Text, hasSubstr "pdf".toList (ct.map asciiLower) = true →
      classify (.resp true (some ct)) = .verified) ∧
    (∀ ct : Text, hasSubstr "pdf".toList (ct.map asciiLower) = false →
      classify (.resp true (some ct)) = .invalid) ∧
    (∀ oct : Option Text, classify (.resp false oct) = .dead) ∧
    classify .errored = .unverifiable := by
  refine ⟨fun ct h => by simp [classify]; simpa using h,
    fun ct h => by simp [classify]; simpa using h,
    fun oct => by cases oct <;> rfl, rfl⟩

/-- Witness for claim C6 at concrete content types. -/
theorem claimC6_witness :
    classify (.resp true (some "application/PDF".toList)) = .verified ∧
    classify (.resp true (some "text/html".toList)) = .invalid ∧
    classify (.resp false (some "application/pdf".toList)) = .dead ∧
    classify .errored = .unverifiable :=
  ⟨claimC6.1 _ (by decide), claimC6.2.1 _ (by decide),
    claimC6.2.2.1 _, claimC6.2.2.2⟩

/-- Claim C10: a probe that completes with a success status but declares
    no content type at all is classified invalid. -/
theorem claimC10 : classify (.resp true none) = .invalid := rfl

/-- Claim C3 (amended): for a verification pass with at least one
    extracted URL, the trailing summary block is the header followed by:
    the alert line alone when some URL was invalid or dead and none were
    unverifiable; the alert line AND the note line together when some URL
    was invalid or dead and the unverifiable count is positive; the note
    line alone when no URL was invalid or dead but the unverifiable count
    is positive; the success line otherwise.  Contrary to the original
    claim the alert line and the note line do appear together. -/
theorem claimC3_amended (probe : Text → ProbeOutcome) (t : Text)
    (h : uniqueUrls t ≠ []) :
    ((annotAcc probe t).hasIssues = true → (annotAcc probe t).unver = 0 →
      verifyPdfLinks probe t = (annotAcc probe t).text ++ summaryHeader ++ alertLine) ∧
    ((annotAcc probe t).hasIssues = true → 0 < (annotAcc probe t).unver →
      verifyPdfLinks probe t =
        (annotAcc probe t).text ++ summaryHeader ++ alertLine ++
          noteLine (annotAcc probe t).unver) ∧
    ((annotAcc probe t).hasIssues = false → 0 < (annotAcc probe t).unver →
      verifyPdfLinks probe t =
        (annotAcc probe t).text ++ summaryHeader ++ noteLine (annotAcc probe t).unver) ∧
    ((annotAcc probe t).hasIssues = false → (annotAcc probe t).unver = 0 →
      verifyPdfLinks probe t = (annotAcc probe t).text ++ summaryHeader ++ successLine) := by
  refine ⟨?_, ?_, ?_, ?_⟩ <;> intro h1 h2 <;>
    simp [verifyPdfLinks, h, summaryFor, h1, h2, Nat.not_lt_of_lt, List.append_assoc]

/-- Probe used by the claim C3 witness: everything unverifiable. -/
def probeW3 : Text → ProbeOutcome := fun _ => .errored

/-- Witness for claim C3 (amended): one URL, unverifiable, no issues. -/
theorem claimC3_witness :
    verifyPdfLinks probeW3 "x https://a.pdf".toList =
      (annotAcc probeW3 "x https://a.pdf".toList).text ++ summaryHeader ++
        noteLine (annotAcc probeW3 "x https://a.pdf".toList).unver :=
  (claimC3_amended probeW3 "x https://a.pdf".toList (by decide)).2.2.1
    (by decide) (by decide)

/-- Probe used by the claim C3 counterexample: one URL dead, one raises. -/
def probeC3 : Text → ProbeOutcome :=
  fun u => if u = "https://x.pdf".toList then .resp false none else .errored

/-- Claim C3 counterexample: with one dead URL and one unverifiable URL in
    the same pass, the produced text contains BOTH the alert line and the
    unverifiable-count note line, refuting the mutual exclusivity stated
    by the claim. -/
theorem claimC3_cex :
    hasSubstr alertLine
      (verifyPdfLinks probeC3 "A https://x.pdf B https://y.pdf".toList) = true ∧
    hasSubstr (noteLine 1)
      (verifyPdfLinks probeC3 "A https://x.pdf B https://y.pdf".toList) = true := by
  constructor <;> decide

/-- Claim C8: when the scan finds the same PDF URL three times, exact
    string deduplication leaves a single URL, so exactly one probe result
    is produced, and annotation rewrites each of the three occurrences of
    the URL (the parts a b c d around them reconstruct the text) into the
    URL followed by the SAME status marker. -/
theorem claimC8 (probe : Text → ProbeOutcome) (t u a b c d : Text)
    (po : ProbeOutcome)
    (hm : scanMatches t = [u, u, u])
    (hs : splitOnSub u t = [a, b, c, d])
    (hp : probe u = po)
    (hnv : classify po ≠ .unverifiable) :
    uniqueUrls t = [u] ∧
    (verifyResults probe t).length = 1 ∧
    t = a ++ u ++ b ++ u ++ c ++ u ++ d ∧
    enrichedBody probe t =
      a ++ u ++ markerOf (classify po) ++ b ++ u ++ markerOf (classify po) ++
        c ++ u ++ markerOf (classify po) ++ d := by
  have huniq : uniqueUrls t = [u] := by
    rw [uniqueUrls, hm]
    simp [dedupKeepFirst, dedupKeepFirstF]
  have htey : t = a ++ u ++ b ++ u ++ c ++ u ++ d := by
    have h0 := joinWith_splitOnSub u t
    rw [hs] at h0
    simp only [joinWith, List.append_assoc] at h0
    simp only [List.append_assoc]
    exact h0.symm
  refine ⟨huniq, by simp [verifyResults, huniq], htey, ?_⟩
  have hbody : enrichedBody probe t =
      (annotStep ⟨t, false, 0⟩ (u, classify po)).text := by
    simp [enrichedBody, annotAcc, verifyResults, huniq, hp]
  rw [hbody]
  cases hcl : classify po with
  | verified =>
    simp only [annotStep, markerOf]
    rw [replaceAll_eq_joinWith, hs]
    simp [joinWith, List.append_assoc]
  | invalid =>
    simp only [annotStep, markerOf]
    rw [replaceAll_eq_joinWith, hs]
    simp [joinWith, List.append_assoc]
  | dead =>
    simp only [annotStep, markerOf]
    rw [replaceAll_eq_joinWith, hs]
    simp [joinWith, List.append_assoc]
  | unverifiable => exact absurd hcl hnv

/-- Witness for claim C8: the same URL three times, probe verified. -/
theorem claimC8_witness :
    uniqueUrls "x https://a.pdf y https://a.pdf z https://a.pdf w".toList =
      ["https://a.pdf".toList] ∧
    (verifyResults (fun _ => .resp true (some "application/pdf".toList))
      "x https://a.pdf y https://a.pdf z https://a.pdf w".toList).length = 1 ∧
    "x https://a.pdf y https://a.pdf z https://a.pdf w".toList =
      "x ".toList ++ "https://a.pdf".toList ++ " y ".toList ++
        "https://a.pdf".toList ++ " z ".toList ++ "https://a.pdf".toList ++
        " w".toList ∧
    enrichedBody (fun _ => .resp true (some "application/pdf".toList))
        "x https://a.pdf y https://a.pdf z https://a.pdf w".toList =
      "x ".toList ++ "https://a.pdf".toList ++
        markerOf (classify (.resp true (some "application/pdf".toList))) ++
        " y ".toList ++ "https://a.pdf".toList ++
        markerOf (classify (.resp true (some "application/pdf".toList))) ++
        " z ".toList ++ "https://a.pdf".toList ++
        markerOf (classify (.resp true (some "application/pdf".toList))) ++
        " w".toList :=
  claimC8 (fun _ => .resp true (some "application/pdf".toList))
    "x https://a.pdf y https://a.pdf z https://a.pdf w".toList
    "https://a.pdf".toList "x ".toList " y ".toList " z ".toList " w".toList
    (.resp true (some "application/pdf".toList))
    (by decide) (by decide) rfl (by decide)

/-- Claim C7 (amended): running the verifier on its own prior output is
    NOT marker-idempotent.  Annotation replaces the literal URL substring,
    so when the second pass extracts the same single URL with the same
    verified probe outcome, the URL that is already followed by its marker
    receives the marker again — it carries two markers in the second
    output — and a second summary block is appended. -/
theorem claimC7_amended (probe : Text → ProbeOutcome) (t u x y ct : Text)
    (hu1 : uniqueUrls t = [u])
    (hp : probe u = .resp true (some ct))
    (hct : hasSubstr "pdf".toList (ct.map asciiLower) = true)
    (hs1 : splitOnSub u t = [x, y])
    (hs2 : splitOnSub u (x ++ u ++ markVerified ++ y ++ summaryFor false 0) =
      [x, markVerified ++ y ++ summaryFor false 0])
    (hu2 : uniqueUrls (x ++ u ++ markVerified ++ y ++ summaryFor false 0) = [u]) :
    verifyPdfLinks probe (verifyPdfLinks probe t) =
      x ++ u ++ markVerified ++ markVerified ++ y ++
        summaryFor false 0 ++ summaryFor false 0 := by
  have hcl : classify (probe u) = .verified := by
    rw [hp]
    simp [classify]
    simpa using hct
  have hpass1 : verifyPdfLinks probe t =
      x ++ u ++ markVerified ++ y ++ summaryFor false 0 := by
    rw [verifyPdfLinks]
    rw [if_neg (by simp [hu1])]
    have hacc : annotAcc probe t =
        ⟨replaceAll u (u ++ markVerified) t, false, 0⟩ := by
      simp [annotAcc, verifyResults, hu1, hcl, annotStep]
    rw [hacc]
    rw [replaceAll_eq_joinWith, hs1]
    simp [joinWith, List.append_assoc]
  rw [hpass1]
  rw [verifyPdfLinks]
  have hne : uniqueUrls (x ++ u ++ markVerified ++ y ++ summaryFor false 0) ≠ [] := by
    rw [hu2]
    simp
  rw [if_neg hne]
  have hres2 : verifyResults probe
      (x ++ u ++ markVerified ++ y ++ summaryFor false 0) = [(u, .verified)] := by
    rw [verifyResults, hu2]
    simp [hcl]
  have hacc2 : annotAcc probe (x ++ u ++ markVerified ++ y ++ summaryFor false 0) =
      ⟨replaceAll u (u ++ markVerified)
        (x ++ u ++ markVerified ++ y ++ summaryFor false 0), false, 0⟩ := by
    rw [annotAcc, hres2]
    simp [annotStep]
  rw [hacc2]
  rw [replaceAll_eq_joinWith]
  rw [hs2]
  simp [joinWith, List.append_assoc]

/-- Probe used by the claim C7 witness and counterexample: every URL
    responds with success and a PDF content type. -/
def probePdf : Text → ProbeOutcome := fun _ => .resp true (some "application/pdf".toList)

/-- Witness for claim C7 (amended) at a concrete single-URL text. -/
theorem claimC7_witness :
    verifyPdfLinks probePdf (verifyPdfLinks probePdf "See https://a.pdf".toList) =
      "See ".toList ++ "https://a.pdf".toList ++ markVerified ++ markVerified ++
        [] ++ summaryFor false 0 ++ summaryFor false 0 :=
  claimC7_amended probePdf "See https://a.pdf".toList "https://a.pdf".toList
    "See ".toList [] "application/pdf".toList
    (by decide) rfl (by decide) (by decide) (by decide) (by decide)

/-- Claim C7 counterexample: invoking the verifier on its own prior output
    with the same URL set and probe outcomes leaves the URL followed by
    TWO markers, not exactly one as the claim states. -/
theorem claimC7_cex :
    hasSubstr ("https://a.pdf ✅ ✅".toList)
      (verifyPdfLinks probePdf
        (verifyPdfLinks probePdf "See https://a.pdf".toList)) = true := by
  decide

/-- Lower-cased subject name of a history entry. -/
def lowName (it : ResearchHistoryItem) : String :=
  jsToLower it.companyName

/-- Claim C5: if the stored history has pairwise distinct lower-cased
    subject names, is ordered most-recent-first, and the new timestamp is
    at least every stored one, then after a save the history has at most
    five entries, still has pairwise distinct lower-cased names, is still
    most-recent-first, starts with the new entry, and no later entry
    carries the saved subject name under case-insensitive comparison. -/
theorem claimC5 (cn : String) (arts : List Artifact) (now : Nat)
    (h : List ResearchHistoryItem)
    (hdup : h.Pairwise (fun a b => lowName a ≠ lowName b))
    (hord : h.Pairwise (fun a b => b.timestamp ≤ a.timestamp))
    (hnow : ∀ e ∈ h, e.timestamp ≤ now) :
    (saveToHistory cn arts now h).length ≤ 5 ∧
    (saveToHistory cn arts now h).Pairwise (fun a b => lowName a ≠ lowName b) ∧
    (saveToHistory cn arts now h).Pairwise (fun a b => b.timestamp ≤ a.timestamp) ∧
    (saveToHistory cn arts now h).head? = some ⟨cn, now, arts⟩ ∧
    ∀ e ∈ (saveToHistory cn arts now h).tail, lowName e ≠ jsToLower cn := by
  have hfsub : (h.filter
      (fun item => decide (jsToLower item.companyName ≠ jsToLower cn))).Sublist h :=
    List.filter_sublist h
  have hmemf : ∀ e ∈ h.filter
      (fun item => decide (jsToLower item.companyName ≠ jsToLower cn)),
      lowName e ≠ jsToLower cn := by
    intro e he
    have := (List.mem_filter.mp he).2
    simpa [lowName] using this
  have hmemh : ∀ e ∈ h.filter
      (fun item => decide (jsToLower item.companyName ≠ jsToLower cn)), e ∈ h :=
    fun e he => hfsub.mem he
  refine ⟨?_, ?_, ?_, ?_, ?_⟩
  · simp only [saveToHistory]
    have := List.length_take 5 ((⟨cn, now, arts⟩ : ResearchHistoryItem) ::
      h.filter (fun item => decide (jsToLower item.companyName ≠ jsToLower cn)))
    omega
  · simp only [saveToHistory]
    refine List.Pairwise.sublist (List.take_sublist _ _) ?_
    refine List.pairwise_cons.mpr ⟨?_, hdup.sublist hfsub⟩
    intro b hb
    exact fun hc => (hmemf b hb) (by simpa [lowName] using hc.symm)
  · simp only [saveToHistory]
    refine List.Pairwise.sublist (List.take_sublist _ _) ?_
    refine List.pairwise_cons.mpr ⟨?_, hord.sublist hfsub⟩
    intro b hb
    exact hnow b (hmemh b hb)
  · simp [saveToHistory]
  · simp only [saveToHistory, List.take_succ_cons, List.tail_cons]
    intro e he
    exact hmemf e (List.mem_of_mem_take he)

/-- Witness for claim C5: saving "apple" over a history holding "Apple"
    with an older timestamp. -/
theorem claimC5_witness :
    (saveToHistory "apple" [] 2 [⟨"Apple", 1, []⟩]).length ≤ 5 ∧
    (saveToHistory "apple" [] 2 [⟨"Apple", 1, []⟩]).Pairwise
      (fun a b => lowName a ≠ lowName b) ∧
    (saveToHistory "apple" [] 2 [⟨"Apple", 1, []⟩]).Pairwise
      (fun a b => b.timestamp ≤ a.timestamp) ∧
    (saveToHistory "apple" [] 2 [⟨"Apple", 1, []⟩]).head? = some ⟨"apple", 2, []⟩ ∧
    ∀ e ∈ (saveToHistory "apple" [] 2 [⟨"Apple", 1, []⟩]).tail,
      lowName e ≠ jsToLower "apple" :=
  claimC5 "apple" [] 2 [⟨"Apple", 1, []⟩] (by simp) (by simp)
    (by intro e he; simp at he; simp [he])

/-- Claim C1: for a run that actually starts (non-empty subject, no run in
    progress), there are three artifact values such that every published
    state carries a prefix of that three-element sequence, and the final
    published state is either Completed holding all three artifacts, or
    the Failed state or the silent reauthorization reset to Idle holding
    fewer than three. -/
theorem claimC1 (gds : String → Except String String)
    (ger gim : String → String → Except String String)
    (now : Nat) (st : ResearchState)
    (h1 : st.companyName ≠ "") (h2 : st.isProcessing = false) :
    ∃ a r m : Artifact,
      (∀ s ∈ (startResearch gds ger gim now st).1, s.artifacts <+: [a, r, m]) ∧
      ∃ fin, ((startResearch gds ger gim now st).1).getLast? = some fin ∧
        ((fin.currentStep = .COMPLETED ∧ fin.artifacts = [a, r, m]) ∨
         ((fin.currentStep = .ERROR ∨ fin.currentStep = .IDLE) ∧
           fin.artifacts.length < 3)) := by
  cases hgds : gds st.companyName with
  | error msg =>
    rw [startResearch, if_neg (by simp [h1, h2])]
    dsimp only
    rw [hgds]
    dsimp only
    refine ⟨⟨"", "", "", ""⟩, ⟨"", "", "", ""⟩, ⟨"", "", "", ""⟩, ?_, ?_⟩
    · intro s hs
      simp only [List.mem_cons, List.not_mem_nil, or_false] at hs
      rcases hs with rfl | rfl
      · exact ⟨_, rfl⟩
      · simp only [catchState]
        split <;> exact ⟨_, rfl⟩
    · refine ⟨_, rfl, ?_⟩
      right
      simp only [catchState]
      split <;> simp
  | ok d =>
    cases hger : ger st.companyName d with
    | error msg =>
      rw [startResearch, if_neg (by simp [h1, h2])]
      dsimp only
      rw [hgds]
      dsimp only
      rw [hger]
      dsimp only
      refine ⟨⟨"step1", underscored st.companyName ++ "_1_Document_Sources.md",
        d, "Official Document Sources"⟩, ⟨"", "", "", ""⟩, ⟨"", "", "", ""⟩, ?_, ?_⟩
      · intro s hs
        simp only [List.mem_cons, List.not_mem_nil, or_false] at hs
        rcases hs with rfl | rfl | rfl
        · exact ⟨_, rfl⟩
        · exact ⟨_, rfl⟩
        · simp only [catchState]
          split <;> exact ⟨_, rfl⟩
      · refine ⟨_, rfl, ?_⟩
        right
        simp only [catchState]
        split <;> simp
    | ok r =>
      cases hgim : gim st.companyName (d ++ "\n\n" ++ r) with
      | error msg =>
        rw [startResearch, if_neg (by simp [h1, h2])]
        dsimp only
        rw [hgds]
        dsimp only
        rw [hger]
        dsimp only
        rw [hgim]
        dsimp only
        refine ⟨⟨"step1", underscored st.companyName ++ "_1_Document_Sources.md",
          d, "Official Document Sources"⟩,
          ⟨"step2", underscored st.companyName ++ "_2_Equity_Report.md",
            r, "Equity Analyst Report"⟩, ⟨"", "", "", ""⟩, ?_, ?_⟩
        · intro s hs
          simp only [List.mem_cons, List.not_mem_nil, or_false] at hs
          rcases hs with rfl | rfl | rfl | rfl
          · exact ⟨_, rfl⟩
          · exact ⟨_, rfl⟩
          · exact ⟨_, rfl⟩
          · simp only [catchState]
            split <;> exact ⟨_, rfl⟩
        · refine ⟨_, rfl, ?_⟩
          right
          simp only [catchState]
          split <;> simp
      | ok m =>
        rw [startResearch, if_neg (by simp [h1, h2])]
        dsimp only
        rw [hgds]
        dsimp only
        rw [hger]
        dsimp only
        rw [hgim]
        dsimp only
        refine ⟨⟨"step1", underscored st.companyName ++ "_1_Document_Sources.md",
          d, "Official Document Sources"⟩,
          ⟨"step2", underscored st.companyName ++ "_2_Equity_Report.md",
            r, "Equity Analyst Report"⟩,
          ⟨"step3", underscored st.companyName ++ "_3_Investment_Memo.md",
            m, "Investment Memo"⟩, ?_, ?_⟩
        · intro s hs
          simp only [List.mem_cons, List.not_mem_nil, or_false] at hs
          rcases hs with rfl | rfl | rfl | rfl | rfl
          · exact ⟨_, rfl⟩
          · exact ⟨_, rfl⟩
          · exact ⟨_, rfl⟩
          · exact ⟨_, rfl⟩
          · exact ⟨_, rfl⟩
        · refine ⟨_, rfl, ?_⟩
          left
          simp

/-- Idle initial state used by the orchestrator witnesses. -/
def st0 : ResearchState := ⟨"Acme", .IDLE, [], [], none, false⟩

/-- Witness for claim C1: a fully successful run from the idle state. -/
theorem claimC1_witness :
    ∃ a r m : Artifact,
      (∀ s ∈ (startResearch (fun _ => .ok "D") (fun _ _ => .ok "R")
          (fun _ _ => .ok "M") 0 st0).1, s.artifacts <+: [a, r, m]) ∧
      ∃ fin, ((startResearch (fun _ => .ok "D") (fun _ _ => .ok "R")
          (fun _ _ => .ok "M") 0 st0).1).getLast? = some fin ∧
        ((fin.currentStep = .COMPLETED ∧ fin.artifacts = [a, r, m]) ∨
         ((fin.currentStep = .ERROR ∨ fin.currentStep = .IDLE) ∧
           fin.artifacts.length < 3)) :=
  claimC1 (fun _ => .ok "D") (fun _ _ => .ok "R") (fun _ _ => .ok "M") 0 st0
    (by decide) rfl

/-- Claim C2 (amended): entering the memo stage, the orchestrator invokes
    Stage 3 with the subject name and the CONCATENATION of the Stage-1
    sources content, a blank line, and the Stage-2 report content — not
    the Stage-2 content alone: the completed run's artifact contents are
    the Stage-1 text, the Stage-2 text, and the value Stage 3 returned for
    that concatenated context. -/
theorem claimC2_amended (gds : String → Except String String)
    (ger gim : String → String → Except String String)
    (now : Nat) (st : ResearchState) (d r m : String)
    (h1 : st.companyName ≠ "") (h2 : st.isProcessing = false)
    (hd : gds st.companyName = .ok d)
    (hr : ger st.companyName d = .ok r)
    (hm : gim st.companyName (d ++ "\n\n" ++ r) = .ok m) :
    ∃ fin, ((startResearch gds ger gim now st).1).getLast? = some fin ∧
      fin.currentStep = .COMPLETED ∧
      fin.artifacts.map Artifact.content = [d, r, m] := by
  rw [startResearch, if_neg (by simp [h1, h2])]
  dsimp only
  rw [hd]
  dsimp only
  rw [hr]
  dsimp only
  rw [hm]
  dsimp only
  exact ⟨_, rfl, rfl, rfl⟩

/-- Witness for claim C2 (amended). -/
theorem claimC2_witness :
    ∃ fin, ((startResearch (fun _ => .ok "D") (fun _ _ => .ok "R")
        (fun _ c => .ok ("got " ++ c)) 0 st0).1).getLast? = some fin ∧
      fin.currentStep = .COMPLETED ∧
      fin.artifacts.map Artifact.content = ["D", "R", "got D\n\nR"] :=
  claimC2_amended (fun _ => .ok "D") (fun _ _ => .ok "R")
    (fun _ c => .ok ("got " ++ c)) 0 st0 "D" "R" "got D\n\nR"
    (by decide) rfl rfl rfl rfl

/-- Claim C2 counterexample: with an echoing Stage 3 (returning exactly
    the context it was handed), the completed memo artifact holds the
    Stage-1 text, a blank line, and the Stage-2 text — not the Stage-2
    report content alone, refuting the claim that Stage 3 receives exactly
    the Stage-2 content. -/
theorem claimC2_cex :
    ((startResearch (fun _ => .ok "D") (fun _ _ => .ok "R")
        (fun _ ctx => .ok ctx) 0 st0).1.getLast?.map
      (fun s => s.artifacts.map Artifact.content)) = some ["D", "R", "D\n\nR"] ∧
    ("D\n\nR" : String) ≠ "R" := by
  constructor
  · rfl
  · decide

/-- Claim C4: when the first failing stage fails with a message containing
    the authorization-revoked phrase, the run does not enter the ERROR
    step and records no error message: the final published state is back
    at IDLE with no error and not processing, and exactly one
    reauthorization signal is raised. -/
theorem claimC4 (gds : String → Except String String)
    (ger gim : String → String → Except String String)
    (now : Nat) (st : ResearchState)
    (h1 : st.companyName ≠ "") (h2 : st.isProcessing = false)
    (hf :
      (∃ msg, gds st.companyName = .error msg ∧ containsStr msg authPhrase = true) ∨
      (∃ d msg, gds st.companyName = .ok d ∧ ger st.companyName d = .error msg ∧
        containsStr msg authPhrase = true) ∨
      (∃ d r msg, gds st.companyName = .ok d ∧ ger st.companyName d = .ok r ∧
        gim st.companyName (d ++ "\n\n" ++ r) = .error msg ∧
        containsStr msg authPhrase = true)) :
    (startResearch gds ger gim now st).2 = 1 ∧
    ∃ fin, ((startResearch gds ger gim now st).1).getLast? = some fin ∧
      fin.currentStep = .IDLE ∧ fin.error = none ∧ fin.isProcessing = false := by
  rcases hf with ⟨msg, hgds, hc⟩ | ⟨d, msg, hgds, hger, hc⟩ | ⟨d, r, msg, hgds, hger, hgim, hc⟩
  · rw [startResearch, if_neg (by simp [h1, h2])]
    dsimp only
    rw [hgds]
    dsimp only
    refine ⟨by simp [reauthSignal, hc], _, rfl, ?_⟩
    simp [catchState, hc]
  · rw [startResearch, if_neg (by simp [h1, h2])]
    dsimp only
    rw [hgds]
    dsimp only
    rw [hger]
    dsimp only
    refine ⟨by simp [reauthSignal, hc], _, rfl, ?_⟩
    simp [catchState, hc]
  · rw [startResearch, if_neg (by simp [h1, h2])]
    dsimp only
    rw [hgds]
    dsimp only
    rw [hger]
    dsimp only
    rw [hgim]
    dsimp only
    refine ⟨by simp [reauthSignal, hc], _, rfl, ?_⟩
    simp [catchState, hc]

/-- Witness for claim C4: Stage 1 raises the revoked-authorization error. -/
theorem claimC4_witness :
    (startResearch (fun _ => .error "Requested entity was not found.")
      (fun _ _ => .ok "R") (fun _ _ => .ok "M") 0 st0).2 = 1 ∧
    ∃ fin, ((startResearch (fun _ => .error "Requested entity was not found.")
        (fun _ _ => .ok "R") (fun _ _ => .ok "M") 0 st0).1).getLast? = some fin ∧
      fin.currentStep = .IDLE ∧ fin.error = none ∧ fin.isProcessing = false :=
  claimC4 (fun _ => .error "Requested entity was not found.")
    (fun _ _ => .ok "R") (fun _ _ => .ok "M") 0 st0 (by decide) rfl
    (Or.inl ⟨"Requested entity was not found.", rfl, by decide⟩)

/-- Claim C9 (amended): when Stage 2 fails with a generic message not
    carrying the authorization phrase, the run ends at the ERROR step
    carrying that message — or the fixed fallback text when the message is
    empty — no reauthorization signal is raised, the stored history is
    untouched, and the artifacts are exactly the Stage-1 artifact. -/
theorem claimC9_amended (gds : String → Except String String)
    (ger gim : String → String → Except String String)
    (now : Nat) (st : ResearchState) (d msg : String)
    (h1 : st.companyName ≠ "") (h2 : st.isProcessing = false)
    (hd : gds st.companyName = .ok d)
    (he : ger st.companyName d = .error msg)
    (hna : containsStr msg authPhrase = false) :
    (startResearch gds ger gim now st).2 = 0 ∧
    ∃ fin, ((startResearch gds ger gim now st).1).getLast? = some fin ∧
      fin.currentStep = .ERROR ∧
      fin.error = some (if msg = "" then "An unexpected error occurred during research."
        else msg) ∧
      fin.history = st.history ∧
      fin.artifacts = [⟨"step1",
        underscored st.companyName ++ "_1_Document_Sources.md", d,
        "Official Document Sources"⟩] := by
  rw [startResearch, if_neg (by simp [h1, h2])]
  dsimp only
  rw [hd]
  dsimp only
  rw [he]
  dsimp only
  refine ⟨by simp [reauthSignal, hna], _, rfl, ?_⟩
  simp [catchState, hna]

/-- Witness for claim C9 (amended) with a concrete generic failure. -/
theorem claimC9_witness :
    (startResearch (fun _ => .ok "D") (fun _ _ => .error "boom")
      (fun _ _ => .ok "M") 0 st0).2 = 0 ∧
    ∃ fin, ((startResearch (fun _ => .ok "D") (fun _ _ => .error "boom")
        (fun _ _ => .ok "M") 0 st0).1).getLast? = some fin ∧
      fin.currentStep = .ERROR ∧
      fin.error = some (if ("boom" : String) = "" then
        "An unexpected error occurred during research." else "boom") ∧
      fin.history = st0.history ∧
      fin.artifacts = [⟨"step1",
        underscored st0.companyName ++ "_1_Document_Sources.md", "D",
        "Official Document Sources"⟩] :=
  claimC9_amended (fun _ => .ok "D") (fun _ _ => .error "boom")
    (fun _ _ => .ok "M") 0 st0 "D" "boom" (by decide) rfl rfl rfl (by decide)

/-- Claim C9 counterexample: Stage 2 failing with the EMPTY message is a
    generic non-authorization failure, yet the final state does not carry
    that message — the code substitutes a fixed fallback text, so the
    claim "Failed carrying that error's message" fails at this input. -/
theorem claimC9_cex :
    ((startResearch (fun _ => .ok "D") (fun _ _ => .error "")
        (fun _ _ => .ok "M") 0 st0).1.getLast?.map
      (fun s => (s.currentStep, s.error))) =
      some (.ERROR, some "An unexpected error occurred during research.") ∧
    some "An unexpected error occurred during research." ≠ some ("" : String) := by
  constructor
  · rfl
  · decide
